import Mathlib

/-!
Verification of the UQTOPUS uncertainty-quantification core.

Shallow embedding of the Python sources under src/:
  * src/uq_runner.py            (legacy runner: sampling, per-sample case
                                 materialization, orchestration)
  * src/uqtopus/core/uq_runner.py (packaged runner: grouped template rendering)
  * src/openfoam_tools.py       (field parsing and case/study aggregation)

Conventions of the embedding:
  * Python floats are modelled as `Option ℚ` (`NF` below): `some q` is a finite
    value with exact rational arithmetic, `none` stands for a non-finite float
    (NaN or ±inf, e.g. the result of `0.0 / 0`).  Where the code can divide by
    zero the embedding uses `npDiv`, which produces `none` exactly when numpy
    would produce a non-finite value.
  * Python strings are Lean `String`s; line lists are `List String` without the
    trailing newline (every use in the sources either strips the line, tolerates
    surrounding whitespace, or tests a prefix, so dropping the newline is
    behaviour-preserving and is noted where it matters).
  * Fallible code returns `Option`/`Except String`; an uncaught Python exception
    is `Except.error` carrying the exception text.
  * External collaborators (pyDOE3 designs, numpy's seeded RNG, jinja2
    rendering, xarray concatenation) are modelled from their sources or
    documented behaviour; each model carries a comment saying what it abstracts.
-/

/-- Non-finite-aware float value: `none` models an IEEE NaN / infinity. -/
abbrev NF : Type := Option ℚ

/-- numpy division. `0.0 / 0` (and any `x / 0`) is non-finite, hence `none`;
NaN operands propagate. Models the elementwise `/` in `generate_samples`. -/
def npDiv (a : NF) (b : ℚ) : NF :=
  match a with
  | Option.none => Option.none
  | Option.some q => if b = 0 then Option.none else Option.some (q / b)

/-- NaN-propagating affine rescale `min_val + u * (max_val - min_val)`,
the per-column operation of `generate_samples` (src/uq_runner.py:161). -/
def nfScale (lo hi : ℚ) (u : NF) : NF :=
  u.map (fun q => lo + q * (hi - lo))

/-- A design-matrix entry lies in the closed interval `[lo, hi]`.  A NaN entry
(`none`) never does. -/
def inClosedRange (v : NF) (lo hi : ℚ) : Prop :=
  ∃ q, v = Option.some q ∧ lo ≤ q ∧ q ≤ hi

/-! ## Sampler (`generate_samples`, src/uq_runner.py:127-163)

The unit-hypercube designs come from external libraries.  `fullfact` is
translated from the pyDOE3 source (deterministic); the stochastic designs
(`lhs`, `np.random.random`) are modelled as pure functions of the seed through
a concrete linear-congruential stream — the claims about them use only that
they are deterministic in the seed and lie inside the unit cube.  The
`plackett_burman` / `box_behnken` / `central_composite` models keep the
codomains of the real designs ({-1,1}, {-1,0,1}, and [-α,α] with α > 1). -/

/-- Model of numpy's seeded pseudo-random stream (a concrete LCG step). -/
def lcg (s : ℕ) : ℕ :=
  (1103515245 * s + 12345) % 2147483648

/-- Model of `np.random.random((n_samples, n_params))` after `np.random.seed`:
entries in `[0, 1)`, a pure function of the seed. -/
def randUnit (seed n p : ℕ) : List (List NF) :=
  (List.range n).map (fun r =>
    (List.range p).map (fun c =>
      Option.some ((lcg (seed + 7919 * r + c) % 65536 : ℚ) / 65536)))

/-- Model of `pyDOE3.lhs(n_params, samples=n_samples, criterion='centermaximin')`
after `np.random.seed`: per column, the `n` interval centres `(2k+1)/(2n)` in a
seed-determined arrangement.  All entries lie in `(0, 1)` and the result is a
pure function of the seed, which is all the claims use. -/
def lhsUnit (seed n p : ℕ) : List (List NF) :=
  (List.range n).map (fun r =>
    (List.range p).map (fun c =>
      Option.some ((2 * (lcg (seed + 31 * c + r) % n) + 1 : ℚ) / (2 * n))))

/-- One column body of pyDOE3 `fullfact`: the level values `0..lvl-1`, each
repeated `levRep` times, tiled `rngRep` times (the `lvl`/`rng` lists in the
pyDOE3 source). -/
def ffColumn (lvl levRep rngRep : ℕ) : List ℕ :=
  (List.range rngRep).flatMap (fun _ =>
    (List.range lvl).flatMap (fun j => List.replicate levRep j))

/-- The columns of pyDOE3 `fullfact`, following its loop: `level_repeat` starts
at 1 and multiplies up, `range_repeat` starts at the total line count and
divides down. -/
def ffCols : List ℕ → ℕ → ℕ → List (List ℕ)
  | [], _, _ => []
  | l :: ls, levRep, rngRep =>
    ffColumn l levRep (rngRep / l) :: ffCols ls (levRep * l) (rngRep / l)

/-- pyDOE3 `fullfact(levels)` as its list of rows (numpy array of shape
`(prod levels, len levels)`). -/
def fullfact (levels : List ℕ) : List (List ℕ) :=
  (ffCols levels 1 (levels.foldl (· * ·) 1)).transpose

/-- Fuelled search for the least `r` with `n ≤ r ^ p` (the fuel `n + 1` always
suffices when `p ≥ 1`). -/
def ceilRootGo (n p : ℕ) : ℕ → ℕ → ℕ
  | 0, r => r
  | fuel + 1, r => if n ≤ r ^ p then r else ceilRootGo n p fuel (r + 1)

/-- Exact-arithmetic model of `int(np.ceil(n_samples ** (1 / n_params)))`
(src/uq_runner.py:142): the ceiling of the real `p`-th root of `n`, i.e. the
least `L` with `n ≤ L ^ p`.  The Python float computation can overestimate an
exact root (e.g. `3125 ** (1/5)` evaluates to `5.000000000000001`, giving 6
instead of 5); that divergence is recorded with claim C2 and is outside this
exact model. -/
def ceilRoot (n p : ℕ) : ℕ :=
  ceilRootGo n p (n + 1) 0

/-- The unit design of the `grid`/`fullfact` branch of `generate_samples`
(src/uq_runner.py:141-144): full factorial on `ceilRoot n p` levels, divided by
`n_levels - 1`, truncated to the first `n` rows.  With one level the division
is `0.0 / 0`, i.e. NaN (`none`). -/
def gridUnit (n p : ℕ) : List (List NF) :=
  let L := ceilRoot n p
  ((fullfact (List.replicate p L)).map
    (fun row => row.map (fun x => npDiv (Option.some (x : ℚ)) ((L : ℤ) - 1 : ℤ)))).take n

/-- Model of `pyDOE3.pbdesign(n_params)`: a ±1 matrix with the Plackett-Burman
row count (next multiple of 4 above `p`); the exact sign arrangement is
abstracted, only the codomain {-1, 1} matters to the embedding. -/
def pbUnitRaw (p : ℕ) : List (List ℚ) :=
  (List.range (4 * (p / 4 + 1))).map (fun r =>
    (List.range p).map (fun c => if (r + c) % 2 = 0 then 1 else -1))

/-- Model of `pyDOE3.bbdesign(n_params)`: entries in {-1, 0, 1}. -/
def bbUnitRaw (p : ℕ) : List (List ℚ) :=
  (List.range (p * p)).map (fun r =>
    (List.range p).map (fun c => ((r + c) % 3 : ℚ) - 1))

/-- Model of `pyDOE3.ccdesign(n_params)`: a circumscribed central-composite
design whose star points sit at ±α with α = 3/2 > 1, so the shifted design
leaves `[0, 1]` before the `np.clip` in the code. -/
def ccUnitRaw (p : ℕ) : List (List ℚ) :=
  (List.range (2 * p + 2)).map (fun r =>
    (List.range p).map (fun c =>
      if r % 2 = 0 then (if (r / 2) % (p + 1) = c then 3/2 else 0)
      else (if (r / 2) % (p + 1) = c then -(3/2) else if (r + c) % 2 = 0 then 1 else -1)))

/-- `np.clip(x, 0, 1)` on a finite value. -/
def clip01 (q : ℚ) : ℚ := max 0 (min 1 q)

/-- `generate_samples(n_samples, param_ranges, method, seed)`
(src/uq_runner.py:127-163).  `ranges` is the ordered `param_ranges` dict
(`name ↦ (min, max)`).  The unseeded case draws on numpy's ambient RNG state,
abstracted here as seed 0; every claim that touches the RNG supplies a seed.
Unknown methods raise `ValueError` (modelled as `Except.error`). -/
def generate_samples (n : ℕ) (ranges : List (String × ℚ × ℚ))
    (method : String) (seed : Option ℕ) : Except String (List (List NF)) :=
  let p := ranges.length
  let s := seed.getD 0
  let unit : Except String (List (List NF)) :=
    if method = "lhs" then Except.ok (lhsUnit s n p)
    else if method = "random" then Except.ok (randUnit s n p)
    else if method = "grid" ∨ method = "fullfact" then
      -- `n_samples ** (1 / n_params)` raises ZeroDivisionError when p = 0
      if p = 0 then Except.error "ZeroDivisionError: division by zero"
      else Except.ok (gridUnit n p)
    else if method = "plackett_burman" then
      Except.ok (((pbUnitRaw p).map (fun row =>
        row.map (fun x => Option.some ((x + 1) / 2)))).take n)
    else if method = "box_behnken" then
      Except.ok (((bbUnitRaw p).map (fun row =>
        row.map (fun x => Option.some ((x + 1) / 2)))).take n)
    else if method = "central_composite" then
      Except.ok (((ccUnitRaw p).map (fun row =>
        row.map (fun x => Option.some (clip01 ((x + 1) / 2))))).take n)
    else Except.error ("Unknown sampling method: " ++ method)
  unit.map (fun rows =>
    rows.map (fun row =>
      (ranges.zip row).map (fun pr => nfScale pr.1.2.1 pr.1.2.2 pr.2)))


/-! ## Python string primitives

The sources manipulate lines with `str.split()`, `str.strip`, `str.startswith`,
`float(...)`, `int(...)` and one regular expression.  These helpers embed those
primitives over `List Char`; each carries the Python behaviour it models. -/

/-- Python `str.isdigit()` restricted to ASCII: non-empty and all characters
`0`-`9` (the sources only meet ASCII directory names). -/
def pyIsdigit (s : String) : Bool :=
  s.data ≠ [] && s.data.all (fun c => c.isDigit)

/-- Numeric value of an all-digit string, the value `float(x)` takes on the
strings accepted by `pyIsdigit` (the sort key in `parse_openfoam_case`). -/
def digitVal (s : String) : ℕ :=
  s.data.foldl (fun a c => 10 * a + (c.toNat - 48)) 0

/-- Python `str.split()` with no argument: split on runs of whitespace,
dropping empty pieces. -/
def pySplitWs (l : List Char) : List (List Char) :=
  (l.splitOnP (fun c => c.isWhitespace)).filter (· ≠ [])

/-- Python `str.strip()`: drop whitespace from both ends. -/
def pyStrip (l : List Char) : List Char :=
  ((l.dropWhile Char.isWhitespace).reverse.dropWhile Char.isWhitespace).reverse

/-- Python `str.strip('()')`: drop `(` and `)` from both ends. -/
def pyStripParens (l : List Char) : List Char :=
  let isPar := fun c => c = '(' ∨ c = ')'
  ((l.dropWhile isPar).reverse.dropWhile isPar).reverse

/-- Leading optional `[-+]` sign of a numeric token. -/
def takeSign : List Char → (List Char × List Char)
  | '-' :: r => (['-'], r)
  | '+' :: r => (['+'], r)
  | l => ([], l)

/-- First alternative of the regex `[-+]?\d*\.\d+|\d+` tried at one position:
optional sign, any digits, a dot, at least one digit.  Greedy digit runs are
maximal runs, which coincides with the regex's backtracking here because a
shortened run would still face a digit where a dot is required. -/
def matchSignedDec (l : List Char) : Option (List Char) :=
  let (sgn, r1) := takeSign l
  let d1 := r1.takeWhile Char.isDigit
  match r1.dropWhile Char.isDigit with
  | '.' :: r3 =>
    let d2 := r3.takeWhile Char.isDigit
    if d2 = [] then Option.none else Option.some (sgn ++ d1 ++ '.' :: d2)
  | _ => Option.none

/-- `re.findall(r"[-+]?\d*\.\d+|\d+", line)[0]`: scan left to right, at each
position try the signed-decimal alternative first, then a bare digit run. -/
def findFirstNumber : List Char → Option (List Char)
  | [] => Option.none
  | c :: rest =>
    match matchSignedDec (c :: rest) with
    | Option.some m => Option.some m
    | Option.none =>
      let d := (c :: rest).takeWhile Char.isDigit
      if d ≠ [] then Option.some d else findFirstNumber rest

/-- Value of a digit run as a natural number. -/
def digitsVal (l : List Char) : ℕ :=
  l.foldl (fun a c => 10 * a + (c.toNat - 48)) 0

/-- Python `float(s)` on the token forms the sources produce:
`[-+]? digits [. digits] [(e|E) [-+]? digits]`, with at least one digit in the
mantissa; anything else (e.g. `abc`, the empty string) raises `ValueError`,
modelled as `none`.  (`float` also accepts `nan`/`inf`, never produced here.) -/
def pyFloatOfChars (l : List Char) : Option ℚ :=
  let (sgn, r1) := takeSign l
  let ip := r1.takeWhile Char.isDigit
  let r2 := r1.dropWhile Char.isDigit
  let (fp, r3) := match r2 with
    | '.' :: t => (t.takeWhile Char.isDigit, t.dropWhile Char.isDigit)
    | _ => ([], r2)
  let (ex, r4) : Option ℤ × List Char := match r3 with
    | 'e' :: t | 'E' :: t =>
      let (es, t1) := takeSign t
      let ed := t1.takeWhile Char.isDigit
      if ed = [] then (Option.none, ['x'])
      else (Option.some (if es = ['-'] then -(digitsVal ed : ℤ) else (digitsVal ed : ℤ)),
            t1.dropWhile Char.isDigit)
    | _ => (Option.some 0, r3)
  match ex with
  | Option.none => Option.none
  | Option.some e =>
    if r4 ≠ [] ∨ (ip = [] ∧ fp = []) then Option.none
    else
      let mag : ℚ := ((digitsVal ip : ℚ) + (digitsVal fp : ℚ) / ((10 : ℚ) ^ fp.length)) * (10 : ℚ) ^ e
      Option.some (if sgn = ['-'] then -mag else mag)

/-- Python `int(s)`: surrounding whitespace tolerated, then `[-+]? digits`,
full match required; otherwise `ValueError` (`none`). -/
def pyIntOfChars (l : List Char) : Option ℤ :=
  let t := pyStrip l
  let (sgn, r1) := takeSign t
  let ds := r1.takeWhile Char.isDigit
  if ds = [] ∨ r1.dropWhile Char.isDigit ≠ [] then Option.none
  else Option.some (if sgn = ['-'] then -(digitsVal ds : ℤ) else (digitsVal ds : ℤ))

/-! ## FieldParser (`read_openfoam_field`, src/openfoam_tools.py:12-63) -/

/-- One parsed entry of a field data block: the Python code appends either a
bare `float` (scalar line) or a small `np.array` of components (vector line). -/
inductive FieldEntry where
  | scalar (v : ℚ)
  | vector (vs : List ℚ)
deriving DecidableEq

/-- `read_openfoam_field(file_path)` (src/openfoam_tools.py:12-63).  The input
is `some lines` for a readable file and `none` for any `open`/read failure; the
whole body sits in `try/except Exception`, so every structural failure
(no `internalField` line, missing tokens, unparsable element count) returns
`None`.  Malformed data lines are skipped with a warning (the `print` calls are
not modelled).  A short data block is silently truncated by the Python slice,
exactly as `content[start+3 : start+3+n]` behaves. -/
def read_openfoam_field (contentOpt : Option (List String)) : Option (List FieldEntry) := do
  let content ← contentOpt
  let si ← content.findIdx? (fun l => "internalField".data.isPrefixOf l.data)
  let fieldInfo ← content[si]?
  let tok1 ← (pySplitWs fieldInfo.data)[1]?
  if tok1 = "uniform".data then
    let numStr ← findFirstNumber fieldInfo.data
    let v ← pyFloatOfChars numStr
    pure [FieldEntry.scalar v]
  else
    let countLine ← content[si + 1]?
    let nE ← pyIntOfChars countLine.data
    let dataLines := (content.drop (si + 3)).take nE.toNat
    pure (dataLines.foldl (fun vs line =>
      let l := pyStripParens (pyStrip line.data)
      if l.contains ' ' then
        match (pySplitWs l).mapM pyFloatOfChars with
        | Option.some comps => vs ++ [FieldEntry.vector comps]
        | Option.none => vs
      else
        match pyFloatOfChars l with
        | Option.some v => vs ++ [FieldEntry.scalar v]
        | Option.none => vs) [])

/-! ## CaseAggregator (`parse_openfoam_case`, src/openfoam_tools.py:67-148) -/

/-- Ordering of time-directory names by numeric value, the key
`lambda x: float(x)` of the `sorted` call at src/openfoam_tools.py:83 (on the
all-digit names admitted by the filter, `float` is `digitVal`). -/
def timeLe (a b : String) : Prop := digitVal a ≤ digitVal b

instance : DecidableRel timeLe := fun _ _ => Nat.decLe _ _

instance : IsTotal String timeLe := ⟨fun a b => Nat.le_total (digitVal a) (digitVal b)⟩

instance : IsTrans String timeLe := ⟨fun _ _ _ h h' => Nat.le_trans h h'⟩

/-- Time-directory discovery
(`sorted([d for d in os.listdir(case_dir) if d.isdigit()], key=lambda x: float(x))`,
src/openfoam_tools.py:83): keep the all-digit entries, sort ascending by
numeric value (Python's `sorted` is a stable comparison sort; insertion sort
realises the same order). -/
def discoverTimes (entries : List String) : List String :=
  List.insertionSort timeLe (entries.filter (fun d => pyIsdigit d))

/-- The `time_dirs` argument of `parse_openfoam_case`: absent, a single value,
or a list (values already serialised with `str`, as `[str(t) for t in ...]`
does). -/
inductive TimeSel where
  | auto
  | one (t : String)
  | many (ts : List String)

/-- The time-directory selection block of `parse_openfoam_case`
(src/openfoam_tools.py:82-87): an explicit selector bypasses discovery
entirely. -/
def selectTimes (entries : List String) : TimeSel → List String
  | TimeSel.auto => discoverTimes entries
  | TimeSel.one t => [t]
  | TimeSel.many ts => ts

/-- Filesystem view of one case directory: the entries of
`os.listdir(case_dir)` and the readable field files, addressed by
(time directory, variable) — `os.path.join` is abstracted into the pair. -/
structure CaseFS where
  entries : List String
  read : String → String → Option (List String)

/-- Result of `parse_openfoam_case` when it does not raise: the `time`
coordinate and, per requested variable, the stacked per-time data block.  The
`xr.Dataset` wrapper, its dimension labels, and the `readmesh` coordinates
(an out-of-scope external collaborator per spec §1) are not modelled. -/
structure ParsedCase where
  times : List ℚ
  vars : List (String × List (List FieldEntry))
deriving DecidableEq

/-- `np.repeat(arr, max_elements, axis=0)` on a length-1 array. -/
def repeatEntry (f : List FieldEntry) (m : ℕ) : List FieldEntry :=
  match f with
  | [e] => List.replicate m e
  | other => other

/-- All data blocks in a stack share the length of the first
(`np.stack` raises `ValueError` otherwise). -/
def sameLengths (rows : List (List FieldEntry)) : Bool :=
  match rows with
  | [] => true
  | r :: rs => rs.all (fun x => x.length = r.length)

/-- `parse_openfoam_case(case_dir, variables, time_dirs)`
(src/openfoam_tools.py:67-148).  Faithful to the Python control flow:

* every `read_openfoam_field` result — including `None` — is stored in
  `all_data[time][var]`;
* `max_elements` evaluates `len(...)` over all stored values, so a single
  failed field read raises `TypeError: object of type 'NoneType' has no len()`
  (and an empty variables/times product raises `ValueError` from `max([])`);
  neither is caught anywhere in the function;
* length-1 fields are broadcast with `np.repeat` to `max_elements`;
* per variable, the per-time arrays are stacked (`np.stack` demands equal
  shapes); variables with no collected data are skipped.

Uncaught exceptions surface as `Except.error`. -/
def parse_openfoam_case (fs : CaseFS) (varList : List String) (sel : TimeSel) :
    Except String ParsedCase := do
  let tds := selectTimes fs.entries sel
  let times ← tds.mapM (fun t =>
    match pyFloatOfChars (pyStrip t.data) with
    | Option.some q => Except.ok q
    | Option.none => Except.error ("ValueError: could not convert string to float: " ++ t))
  let allData := tds.map (fun t => (t, varList.map (fun v => (v, read_openfoam_field (fs.read t v)))))
  let lens ← (allData.flatMap (fun tv => tv.2.map Prod.snd)).mapM (fun fo =>
    match fo with
    | Option.some f => Except.ok f.length
    | Option.none => Except.error "TypeError: object of type 'NoneType' has no len()")
  let maxEl ← match lens.max? with
    | Option.some m => Except.ok m
    | Option.none => Except.error "ValueError: max() arg is an empty sequence"
  let allData2 := allData.map (fun tv =>
    (tv.1, tv.2.map (fun vf =>
      (vf.1, vf.2.map (fun f => if f.length = 1 then repeatEntry f maxEl else f)))))
  let vars ← varList.mapM (fun v => do
    let rows := allData2.filterMap (fun tv => (List.lookup v tv.2).bind id)
    if rows.isEmpty then
      Except.ok Option.none
    else if sameLengths rows then
      Except.ok (Option.some (v, rows))
    else
      Except.error "ValueError: all input arrays must have the same shape")
  Except.ok { times := times, vars := vars.filterMap id }

/-! ## Study aggregation (`read_uq_experiment`, src/openfoam_tools.py:153-200)

`read_uq_experiment` maps `parse_openfoam_case` over the sample directories
`sample_000 .. sample_{n-1}`, concatenates the resulting datasets with
`xr.concat(datasets, dim='sample')` and assigns `sample = [0..n-1]`.

The concat model follows xarray's documented alignment semantics:

* the `time` dimension carries an index coordinate, so the non-concat
  alignment uses `join='outer'` (the default): the union of the time indexes,
  with rows missing from a dataset filled with NaN;
* the `cell` dimension has no index coordinate, so datasets whose cell sizes
  differ cannot be aligned and concat raises
  `ValueError: arguments without labels along dimension 'cell' cannot be
  aligned because they have different dimension sizes`;
* concat requires at least one object.

Data variables are scalar fields laid out time-major (`(time, cell)`); the
`component` axis of vector fields is a second unlabeled dimension treated by
xarray exactly like `cell` and is not replicated in the model. -/

/-- One per-sample dataset as produced by `parse_openfoam_case`: the `time`
index coordinate, the size of the unlabeled `cell` dimension, and per variable
a time-major array of per-cell values. -/
structure CaseDS where
  times : List ℚ
  cells : ℕ
  vars : List (String × List (List NF))
deriving DecidableEq

/-- The stacked study dataset: a new leading `sample` axis (its coordinate
values), the outer-joined `time` index, the common `cell` extent, and per
variable a sample-major array. -/
structure StudyDS where
  sample : List ℕ
  times : List ℚ
  cells : ℕ
  vars : List (String × List (List (List NF)))
deriving DecidableEq

/-- Sorted deduplication of an already-sorted list (adjacent duplicates). -/
def dedupAdj : List ℚ → List ℚ
  | [] => []
  | [a] => [a]
  | a :: b :: t => if a = b then dedupAdj (b :: t) else a :: dedupAdj (b :: t)

/-- Union of the `time` indexes of all datasets, sorted ascending — the
`join='outer'` index union of xarray/pandas. -/
def timesUnion (dss : List CaseDS) : List ℚ :=
  dedupAdj (List.insertionSort (fun a b : ℚ => a ≤ b) (dss.flatMap (fun d => d.times)))

/-- Reindexing one variable of one dataset onto the union time index: a time
present in the dataset keeps its row, a missing time becomes a NaN row (the
outer-join fill). -/
def reindexRows (times : List ℚ) (rows : List (List NF)) (u : List ℚ) (c : ℕ) :
    List (List NF) :=
  u.map (fun t => (List.lookup t (times.zip rows)).getD (List.replicate c Option.none))

/-- `xr.concat(datasets, dim='sample')` under the semantics above.  All inputs
come from `parse_openfoam_case` with the same `variables` argument, so the
model requires identical data-variable name lists (differing variable sets
would trigger xarray's data-variable join, never exercised here). -/
def xr_concat (dss : List CaseDS) : Except String StudyDS :=
  match dss with
  | [] => Except.error "ValueError: must supply at least one object to concatenate"
  | d0 :: _ =>
    if (dss.all (fun d => d.vars.map Prod.fst = d0.vars.map Prod.fst)) = false then
      Except.error "concat of datasets with differing data variables (not modelled)"
    else if (dss.all (fun d => d.cells = d0.cells)) = false then
      Except.error "ValueError: arguments without labels along dimension 'cell' cannot be aligned because they have different dimension sizes"
    else
      let u := timesUnion dss
      Except.ok
        { sample := List.range dss.length
        , times := u
        , cells := d0.cells
        , vars := d0.vars.map (fun v =>
            (v.1, dss.map (fun d =>
              reindexRows d.times ((List.lookup v.1 d.vars).getD []) u d.cells))) }

/-- `read_uq_experiment(case_dir, variables, n_samples, ...)`
(src/openfoam_tools.py:153-200): parse each `sample_{i:03d}` directory, concat
along the new leading `sample` dimension, assign `sample = [0..n-1]`.  The
per-sample parses are supplied as a function of the sample index (the worker
pool evaluates `parse_openfoam_case` per directory; a parse that raises would
abort the pool before concat, so the aggregation step receives parsed
datasets). -/
def read_uq_experiment (parsed : ℕ → CaseDS) (n : ℕ) : Except String StudyDS :=
  (xr_concat ((List.range n).map parsed)).map (fun s => { s with sample := List.range n })

/-! ## CaseMaterializer: template rendering in `run_simulation`

Two implementations exist in the repository:

* `src/uqtopus/core/uq_runner.py:152-180` — keys split on `__`, parameters
  grouped per template file, one render per file;
* `src/uq_runner.py:198-217` — keys split on `/`, one render per parameter,
  each starting from the pristine base template.

Both build their jinja2 `Environment` WITHOUT `undefined=StrictUndefined` and
instead pass `undefined=StrictUndefined` as a keyword argument of
`Template.render`, where it is nothing but an extra context variable named
`undefined`.  The jinja2 model therefore renders with the default lenient
`Undefined`, which prints as the empty string, and ignores context entries no
placeholder refers to. -/

/-- A parsed jinja2 template: literal text interleaved with `{{ name }}`
placeholders. -/
inductive Tok where
  | text (s : String)
  | var (name : String)
deriving DecidableEq

/-- A rendering context value: a numeric parameter, or the
`jinja2.StrictUndefined` class object that `render(..., undefined=...)`
smuggles in as a plain variable. -/
inductive CtxVal where
  | num (q : ℚ)
  | classUndefined
deriving DecidableEq

/-- Printed form of a context value (`str` of a Python float is abstracted to
the rational's canonical print; the claims only compare whole renders). -/
def ctxValStr : CtxVal → String
  | CtxVal.num q => toString q
  | CtxVal.classUndefined => "<class 'jinja2.runtime.StrictUndefined'>"

/-- jinja2 rendering with the default lenient `Undefined`: a bound placeholder
prints its value, an unbound one prints as the empty string, unused context
entries are ignored.  (With `StrictUndefined` configured on the Environment an
unbound placeholder would raise `UndefinedError`; the sources never reach that
configuration.) -/
def jinjaRender (tpl : List Tok) (ctx : List (String × CtxVal)) : String :=
  (tpl.map (fun t =>
    match t with
    | Tok.text s => s
    | Tok.var v =>
      match List.lookup v ctx with
      | Option.some val => ctxValStr val
      | Option.none => "")).foldl (· ++ ·) ""

/-- The context actually passed by both `run_simulation` variants:
the parameter dict plus the stray `undefined=StrictUndefined` binding. -/
def renderCtx (pd : List (String × ℚ)) : List (String × CtxVal) :=
  pd.map (fun kv => (kv.1, CtxVal.num kv.2)) ++ [("undefined", CtxVal.classUndefined)]

/-- `param_path.split(sep)` followed by the arity check and
`param = path_parts[-1]`, `template_path = str(Path(*path_parts[:-1]))`
(path segments joined with `/`).  `none` models the `ValueError` raised for
keys with fewer than two segments. -/
def splitKey (sep : String) (k : String) : Option (String × String) :=
  let parts := k.splitOn sep
  match parts.reverse with
  | [] => Option.none
  | [_] => Option.none
  | p :: rest => Option.some (String.intercalate "/" rest.reverse, p)

/-- Insert into the per-file parameter dict: overwrite an existing name in
place, append a new one (Python dict semantics). -/
def upsertPD : List (String × ℚ) → String → ℚ → List (String × ℚ)
  | [], p, v => [(p, v)]
  | (p', v') :: rest, p, v =>
    if p' = p then (p', v) :: rest else (p', v') :: upsertPD rest p v

/-- Insert into the file-keyed group dict `paths_n_vars`. -/
def upsertGroup : List (String × List (String × ℚ)) → String → String → ℚ →
    List (String × List (String × ℚ))
  | [], t, p, v => [(t, [(p, v)])]
  | (t', pd) :: rest, t, p, v =>
    if t' = t then (t', upsertPD pd p v) :: rest else (t', pd) :: upsertGroup rest t p v

/-- The grouping loop of the packaged `run_simulation`
(src/uqtopus/core/uq_runner.py:158-171): split every key on `__`, collect the
per-file dicts in insertion order; a malformed key raises `ValueError`. -/
def groupParams : List (String × ℚ) → List (String × List (String × ℚ)) →
    Except String (List (String × List (String × ℚ)))
  | [], acc => Except.ok acc
  | (k, v) :: rest, acc =>
    match splitKey "__" k with
    | Option.none =>
      Except.error ("Parameter key '" ++ k ++ "' is not in the correct format. Use 'folder__filename__paramname' format.")
    | Option.some (t, p) => groupParams rest (upsertGroup acc t p v)

/-- The render stage of the packaged `run_simulation`
(src/uqtopus/core/uq_runner.py:158-180): group all parameters by template
file, then render each file once with its whole group and write it under the
target directory.  `base` is the template loader over the pristine base case
(`FileSystemLoader(base_dir)`); a missing template raises `TemplateNotFound`.
The result lists each written file with its final content. -/
def run_simulation_core (params : List (String × ℚ)) (base : String → Option (List Tok)) :
    Except String (List (String × String)) := do
  let gs ← groupParams params []
  gs.mapM (fun tp =>
    match base tp.1 with
    | Option.none => Except.error ("TemplateNotFound: " ++ tp.1)
    | Option.some tpl => Except.ok (tp.1, jinjaRender tpl (renderCtx tp.2)))

/-- Overwrite-on-rewrite file store of the target directory. -/
def upsertFile : List (String × String) → String → String → List (String × String)
  | [], t, c => [(t, c)]
  | (t', c') :: rest, t, c =>
    if t' = t then (t', c) :: rest else (t', c') :: upsertFile rest t c

/-- The render loop of the legacy `run_simulation` (src/uq_runner.py:204-217):
keys split on `/`, ONE render per parameter, each render starting from the
pristine base template with only that single parameter bound, the output
overwriting the file written by any earlier parameter of the same file. -/
def run_simulation_legacy : List (String × ℚ) → (String → Option (List Tok)) →
    List (String × String) → Except String (List (String × String))
  | [], _, files => Except.ok files
  | (k, v) :: rest, base, files =>
    match splitKey "/" k with
    | Option.none =>
      Except.error ("Parameter key '" ++ k ++ "' is not in the correct format. Use 'folder/filename/paramname' format.")
    | Option.some (t, p) =>
      match base t with
      | Option.none => Except.error ("TemplateNotFound: " ++ t)
      | Option.some tpl =>
        run_simulation_legacy rest base (upsertFile files t (jinjaRender tpl (renderCtx [(p, v)])))

/-- All parameters of `params` targeting template file `t` (name and value, in
insertion order) — the specification-side description of "the file's
parameters", used to state that the grouped render loses none of them. -/
def bindingsFor (params : List (String × ℚ)) (t : String) : List (String × ℚ) :=
  params.filterMap (fun kv =>
    match splitKey "__" kv.1 with
    | Option.some (t', p) => if t' = t then Option.some (p, kv.2) else Option.none
    | Option.none => Option.none)

/-- The parsed `(file, param)` keys of a parameter mapping. -/
def parsedKeys (params : List (String × ℚ)) : List (String × String) :=
  params.filterMap (fun kv => splitKey "__" kv.1)

/-! ## Orchestrator worker (`_process_simulation`, both runners, identical
code: src/uq_runner.py:99-121 and src/uqtopus/core/uq_runner.py:96-118) -/

/-- The `experiment` sub-dict of the configuration. -/
structure ExperimentCfg where
  name : String
  base_case_dir : String
deriving DecidableEq

/-- The configuration dict a worker receives (the keys the worker code
touches). -/
structure ExpConfig where
  experiment : ExperimentCfg
  solver : String
  nthreads : ℕ
deriving DecidableEq

/-- Python `f"{i:03d}"` for a natural index: zero-pad to at least three
digits. -/
def pad3 (i : ℕ) : String :=
  let s := toString i
  if s.length < 3 then String.mk (List.replicate (3 - s.length) '0') ++ s else s

/-- The configuration update performed in place by `_process_simulation`
(src/uq_runner.py:110-112): read `exp_config['experiment']['name']`, then
OVERWRITE that same field with `f"{exp_name}/sample_{i:03d}"`.  The dict the
task received is mutated, not copied, within the task; state passing makes
that mutation explicit.  (Each dispatched task unpickles its own copy of the
partial-bound config — `Pool.imap_unordered` re-pickles the task function per
task — so the mutation stays inside the task.) -/
def process_simulation_cfg (i : ℕ) (cfg : ExpConfig) : ExpConfig :=
  { cfg with experiment :=
    { cfg.experiment with name := cfg.experiment.name ++ "/sample_" ++ pad3 i } }

/-! ## `run_uq_study` (src/uq_runner.py:235-275 and
src/uqtopus/core/uq_runner.py:197-237) -/

/-- The experiment configuration as loaded by `load_config` from the YAML
file: the keys `run_uq_study` reads, plus the remaining raw entries of the
file (which `run_uq_study` never consults — in particular any `method` or
`seed` entry a user might add ends up here). -/
structure StudyConfig where
  parameter_ranges : List (String × ℚ × ℚ)
  nthreads : Option ℕ
  experiment : ExperimentCfg
  solver : String
  otherEntries : List (String × String)
deriving DecidableEq

/-- The design-matrix computation of `run_uq_study` (src/uq_runner.py:241-246):
`generate_samples` is invoked with the literal arguments `method='lhs'` and
`seed=42`; nothing from the configuration besides `parameter_ranges` reaches
the sampler. -/
def run_uq_study_design (config : StudyConfig) (n_samples : ℕ) :
    Except String (List (List NF)) :=
  generate_samples n_samples config.parameter_ranges "lhs" (Option.some 42)

/-- Field files of the C5 failing input: time `0` has a readable uniform field
`T`, time `1` has none (an unreadable/missing field file). -/
def c5Read : String → String → Option (List String) := fun t v =>
  if t = "0" ∧ v = "T" then Option.some ["internalField   uniform 3.5;"]
  else Option.none

/-- Per-sample dataset with 3 times and 10 cells of the constant scalar 1. -/
def ds3t10c : CaseDS :=
  { times := [0, 1, 2], cells := 10,
    vars := [("T", List.replicate 3 (List.replicate 10 (Option.some 1)))] }

/-- The same dataset with 9 cells (the ragged sample of the claim). -/
def ds3t9c : CaseDS :=
  { times := [0, 1, 2], cells := 9,
    vars := [("T", List.replicate 3 (List.replicate 9 (Option.some 1)))] }

/-- The same dataset missing its last time step (2 times instead of 3). -/
def ds2t10c : CaseDS :=
  { times := [0, 1], cells := 10,
    vars := [("T", List.replicate 2 (List.replicate 10 (Option.some 1)))] }

/-- Folding a batch of `(name, value)` pairs into a parameter dict with
Python-dict upsert semantics. -/
def pdExtend (pd : List (String × ℚ)) (bs : List (String × ℚ)) : List (String × ℚ) :=
  bs.foldl (fun a pv => upsertPD a pv.1 pv.2) pd

/-! ## Claim theorems -/

/-- C1.  The claim "every entry in column `i` of the returned matrix lies
within `[min_i, max_i]` inclusive ... never left unbounded" fails on the code:
`generate_samples(1, {'x': (2, 5)}, method='grid')` picks one level, divides
the factorial by `n_levels - 1 = 0`, and returns a design matrix whose single
entry is NaN (`0.0/0`, modelled as `none`), which lies in no closed interval.
The spec is the clear intent and the division by zero a slip, so this is
recorded as a code bug; this theorem evaluates the embedded code at the
failing input. -/
theorem generate_samples_grid_nan_out_of_range :
    generate_samples 1 [("x", 2, 5)] "grid" Option.none =
      Except.ok [[Option.none]] ∧ ¬ inClosedRange Option.none 2 5 := by
  refine ⟨by with_unfolding_all rfl, ?_⟩
  rintro ⟨q, hq, -⟩
  cases hq

/-- C2.  The claim describes the `grid` sizing/lattice for every
`n_samples ≥ 1`, but at `n_samples = 1` the code's unit design is not a
factorial lattice normalized into `[0, 1]`: one level makes the normalization
`0.0 / 0`, so the single lattice point is NaN and lies outside `[0, 1]`.
(Independently, the float sizing `int(np.ceil(n ** (1/p)))` is not always the
smallest admissible level count: at `n_samples = 3125, n_params = 5` Python
computes `5.000000000000001` and uses 6 levels where 5 suffice; that float
divergence lies outside this exact-arithmetic embedding and is recorded in the
results.)  This theorem evaluates the embedded unit design at the failing
input. -/
theorem grid_unit_design_nan_at_single_sample :
    gridUnit 1 1 = [[Option.none]] ∧ ¬ inClosedRange Option.none 0 1 := by
  refine ⟨by with_unfolding_all rfl, ?_⟩
  rintro ⟨q, hq, -⟩
  cases hq

/-- C3.  The claim says rendering raises a `TemplateBindingError` naming file
and parameter whenever a referenced placeholder has no supplied value or a
supplied parameter has no placeholder.  The code does neither: the jinja2
`Environment` is built without `undefined=StrictUndefined` (the
`StrictUndefined` passed to `render` is merely a context variable), so at a
template `f` reading `k = {{ y }};` with supplied parameters `{f__x: 1}` the
render SUCCEEDS, substituting the empty string for `y` and ignoring `x`.
The strict configuration is clearly what was intended (the sibling
`template_manager.process_templates` applies it correctly), so this is a code
bug; the theorem evaluates the embedded render stage at the failing input. -/
theorem render_missing_placeholder_silently_empty :
    run_simulation_core [("f__x", 1)]
      (fun t => if t = "f"
        then Option.some [Tok.text "k = ", Tok.var "y", Tok.text ";"]
        else Option.none) =
      Except.ok [("f", "k = ;")] := by
  with_unfolding_all rfl

/-- C5.  First half of the claim holds: `read_openfoam_field` returns `None`
on a failed read.  The second half fails on the code: `parse_openfoam_case`
stores that `None` in `all_data` and then evaluates `len(...)` over all stored
values to compute `max_elements`, so one unavailable field crashes the whole
aggregation pass with an uncaught
`TypeError: object of type 'NoneType' has no len()` instead of treating the
field as missing.  The `try/except` around the read call shows tolerance was
intended, so this is a code bug; the theorem evaluates the embedding at the
failing input (case with times `0`, `1`; variable `T` readable only at
time `0`). -/
theorem parse_case_crashes_on_failed_field_read :
    read_openfoam_field Option.none = Option.none ∧
    parse_openfoam_case { entries := ["0", "1", "constant"], read := c5Read }
        ["T"] TimeSel.auto =
      Except.error "TypeError: object of type 'NoneType' has no len()" := by
  exact ⟨by with_unfolding_all rfl, by with_unfolding_all rfl⟩

/-- C7 counterexample.  The claim says `_process_simulation` leaves the
received configuration unchanged and never overwrites its `name` field.  At
the concrete configuration named `exp` and task index 0 the function rewrites
`experiment.name` to `exp/sample_000`, so the configuration is changed. -/
theorem process_simulation_mutates_config :
    (process_simulation_cfg 0
        { experiment := { name := "exp", base_case_dir := "base" },
          solver := "run.sh", nthreads := 2 }).experiment.name = "exp/sample_000" ∧
    process_simulation_cfg 0
        { experiment := { name := "exp", base_case_dir := "base" },
          solver := "run.sh", nthreads := 2 } ≠
      { experiment := { name := "exp", base_case_dir := "base" },
        solver := "run.sh", nthreads := 2 } := by
  refine ⟨by with_unfolding_all rfl, ?_⟩
  intro h
  have hn := congrArg (fun c => c.experiment.name) h
  simp only [process_simulation_cfg] at hn
  exact absurd hn (by decide)

/-- C7 amended.  `_process_simulation` does NOT leave the configuration
mapping it receives unchanged: for every configuration and task index it
overwrites the `experiment.name` field in place with
`f"{name}/sample_{i:03d}"` (every other field is untouched).  The code itself
makes no per-task copy; each task merely operates on the copy that
multiprocessing's per-task pickling of the partial-bound config happens to
hand it, so the mutation is confined to the task but is a real mutation of
the received mapping, contradicting the claim. -/
theorem process_simulation_name_mutation (cfg : ExpConfig) (i : ℕ) :
    (process_simulation_cfg i cfg).experiment.name =
      cfg.experiment.name ++ "/sample_" ++ pad3 i ∧
    (process_simulation_cfg i cfg).experiment.base_case_dir =
      cfg.experiment.base_case_dir ∧
    (process_simulation_cfg i cfg).solver = cfg.solver ∧
    (process_simulation_cfg i cfg).nthreads = cfg.nthreads := by
  exact ⟨rfl, rfl, rfl, rfl⟩

/-- C8.  `read_openfoam_field` on the three concrete inputs of the claim:
a uniform scalar line yields the length-1 array `[3.5]`; a non-uniform block
declaring count 3 yields `[1.0, 2.0, 3.0]`; the same block with one
unparsable line yields the two parsable entries (the warning is a `print`,
not modelled). -/
theorem read_field_concrete_behaviors :
    read_openfoam_field (Option.some ["FoamFile", "internalField   uniform 3.5;"]) =
      Option.some [FieldEntry.scalar (7/2)] ∧
    read_openfoam_field (Option.some
        ["internalField   nonuniform List<scalar>", "3", "(",
         "(1.0)", "(2.0)", "(3.0)", ")"]) =
      Option.some [FieldEntry.scalar 1, FieldEntry.scalar 2, FieldEntry.scalar 3] ∧
    read_openfoam_field (Option.some
        ["internalField   nonuniform List<scalar>", "3", "(",
         "(1.0)", "(abc)", "(3.0)", ")"]) =
      Option.some [FieldEntry.scalar 1, FieldEntry.scalar 3] := by
  exact ⟨by with_unfolding_all rfl, by with_unfolding_all rfl, by with_unfolding_all rfl⟩

/-- C9 counterexample.  The claim says discovery keeps exactly the names that
parse as numbers, including non-integer times such as `0.5`.  The code filters
with `str.isdigit()`, which rejects `0.5` even though `float('0.5')` parses it
(both facts evaluated below): on the listing
`['0', '0.5', '10', '2', 'constant']` the discovered times are
`['0', '2', '10']` and `0.5` is dropped. -/
theorem discover_times_excludes_decimal :
    discoverTimes ["0", "0.5", "10", "2", "constant"] = ["0", "2", "10"] ∧
    pyFloatOfChars "0.5".data = Option.some (1/2) ∧
    pyIsdigit "0.5" = false ∧
    "0.5" ∉ discoverTimes ["0", "0.5", "10", "2", "constant"] := by
  refine ⟨by with_unfolding_all rfl, by with_unfolding_all rfl, by with_unfolding_all rfl, ?_⟩
  rw [show discoverTimes ["0", "0.5", "10", "2", "constant"] = ["0", "2", "10"]
        from by with_unfolding_all rfl]
  decide

/-- C9 amended.  Discovery keeps exactly the all-digit entries (integral
names; decimal names are excluded), sorted ascending by numeric value — not
lexically — and an explicit `time_dirs` selector (single value or list)
bypasses discovery entirely. -/
theorem discover_times_digit_only_sorted (entries : List String) :
    (∀ s, s ∈ discoverTimes entries ↔ s ∈ entries ∧ pyIsdigit s = true) ∧
    List.Sorted timeLe (discoverTimes entries) ∧
    (∀ t, selectTimes entries (TimeSel.one t) = [t]) ∧
    (∀ ts, selectTimes entries (TimeSel.many ts) = ts) := by
  refine ⟨?_, ?_, fun _ => rfl, fun _ => rfl⟩
  · intro s
    rw [discoverTimes,
        (List.perm_insertionSort timeLe (entries.filter (fun d => pyIsdigit d))).mem_iff,
        List.mem_filter]
  · exact List.sorted_insertionSort timeLe _

/-- C6 counterexample.  The claim says that whenever any sample's time, cell
or component extents disagree, aggregation raises `ShapeMismatchError` rather
than silently reshaping, truncating, or padding.  But the `time` dimension of
the per-sample datasets is an indexed coordinate, and `xr.concat`'s default
`join='outer'` aligns it by union: aggregating three samples of which sample 2
has times `(0, 1)` instead of `(0, 1, 2)` SUCCEEDS, silently padding sample
2's missing time with a NaN row instead of raising. -/
theorem concat_pads_missing_times :
    read_uq_experiment (fun i => if i = 2 then ds2t10c else ds3t10c) 3 =
      Except.ok
        { sample := [0, 1, 2], times := [0, 1, 2], cells := 10,
          vars := [("T",
            [List.replicate 3 (List.replicate 10 (Option.some 1)),
             List.replicate 3 (List.replicate 10 (Option.some 1)),
             [List.replicate 10 (Option.some 1), List.replicate 10 (Option.some 1),
              List.replicate 10 Option.none]])] } := by
  with_unfolding_all rfl

/-- C6 amended.  With identical extents, `read_uq_experiment` stacks the
per-sample datasets along a new leading `sample` axis indexed `0..n-1`
(5 samples of shape `(3 times, 10 cells)` yield `(5, 3, 10)`), and a sample
whose CELL extent disagrees (shape `(3, 9)` against `(3, 10)`) makes
aggregation raise — xarray's unlabeled-dimension alignment `ValueError`; the
repository defines no `ShapeMismatchError` class.  (Disagreement in the
indexed `time` extent, by contrast, is outer-joined with NaN padding — the
counterexample.) -/
theorem study_aggregation_stacks_or_raises :
    read_uq_experiment (fun _ => ds3t10c) 5 =
      Except.ok
        { sample := [0, 1, 2, 3, 4], times := [0, 1, 2], cells := 10,
          vars := [("T", List.replicate 5
            (List.replicate 3 (List.replicate 10 (Option.some 1))))] } ∧
    read_uq_experiment (fun i => if i = 2 then ds3t9c else ds3t10c) 5 =
      Except.error "ValueError: arguments without labels along dimension 'cell' cannot be aligned because they have different dimension sizes" := by
  exact ⟨by with_unfolding_all rfl, by with_unfolding_all rfl⟩

/-- C10.  `run_uq_study` hardwires `method='lhs'` and `seed=42`: the design
matrix depends on nothing in the configuration file but `parameter_ranges`.
Two invocations whose configurations agree on `parameter_ranges` — however
much they differ elsewhere, including any `method`/`seed` entries a user puts
in the YAML — produce the identical design matrix, and the matrix is exactly
`generate_samples(n, ranges, 'lhs', seed=42)`. -/
theorem run_uq_study_design_indep (c1 c2 : StudyConfig) (n : ℕ)
    (h : c1.parameter_ranges = c2.parameter_ranges) :
    run_uq_study_design c1 n = run_uq_study_design c2 n ∧
    run_uq_study_design c1 n =
      generate_samples n c1.parameter_ranges "lhs" (Option.some 42) := by
  refine ⟨?_, rfl⟩
  rw [run_uq_study_design, run_uq_study_design, h]

/-- C10 witness: two concrete configurations differing in every ignored entry
(name, thread count, leftover YAML entries requesting `method: grid` and
`seed: 7`) but sharing `parameter_ranges` yield the same design matrix. -/
theorem run_uq_study_design_indep_witness :
    run_uq_study_design
      { parameter_ranges := [("porosity", 1/10, 3/10)], nthreads := Option.some 4,
        experiment := { name := "studyA", base_case_dir := "caseA" },
        solver := "runA.sh",
        otherEntries := [("method", "grid"), ("seed", "7")] } 3 =
    run_uq_study_design
      { parameter_ranges := [("porosity", 1/10, 3/10)], nthreads := Option.none,
        experiment := { name := "studyB", base_case_dir := "caseB" },
        solver := "runB.sh", otherEntries := [] } 3 :=
  (run_uq_study_design_indep
    { parameter_ranges := [("porosity", 1/10, 3/10)], nthreads := Option.some 4,
      experiment := { name := "studyA", base_case_dir := "caseA" },
      solver := "runA.sh",
      otherEntries := [("method", "grid"), ("seed", "7")] }
    { parameter_ranges := [("porosity", 1/10, 3/10)], nthreads := Option.none,
      experiment := { name := "studyB", base_case_dir := "caseB" },
      solver := "runB.sh", otherEntries := [] } 3 rfl).1

/-- Upserting a fresh name appends it. -/
theorem upsertPD_append (pd : List (String × ℚ)) (p : String) (v : ℚ)
    (h : p ∉ pd.map Prod.fst) : upsertPD pd p v = pd ++ [(p, v)] := by
  induction pd with
  | nil => rfl
  | cons hd tl ih =>
    simp only [List.map_cons, List.mem_cons] at h
    push_neg at h
    simp only [upsertPD, if_neg (Ne.symm h.1), List.cons_append]
    rw [ih h.2]

/-- Extending a dict by a batch of pairwise-fresh names disjoint from the dict
is plain concatenation. -/
theorem pdExtend_append (bs : List (String × ℚ)) :
    ∀ pd : List (String × ℚ), (bs.map Prod.fst).Nodup →
      (∀ p ∈ bs.map Prod.fst, p ∉ pd.map Prod.fst) → pdExtend pd bs = pd ++ bs := by
  induction bs with
  | nil => intro pd _ _; simp [pdExtend]
  | cons b tl ih =>
    intro pd hnd hdisj
    simp only [List.map_cons, List.nodup_cons] at hnd
    have hb : b.1 ∉ pd.map Prod.fst := hdisj b.1 (by simp)
    have step : pdExtend pd (b :: tl) = pdExtend (pd ++ [b]) tl := by
      simp only [pdExtend, List.foldl_cons, upsertPD_append pd b.1 b.2 hb]
    rw [step, ih (pd ++ [b]) hnd.2]
    · simp
    · intro p hp hmem
      simp only [List.map_append, List.mem_append, List.map_cons, List.map_nil,
        List.mem_singleton] at hmem
      rcases hmem with hmem | hmem
      · exact hdisj p (by simp [hp]) hmem
      · rw [hmem] at hp
        exact hnd.1 hp

theorem lookup_upsertGroup (acc : List (String × List (String × ℚ)))
    (t p : String) (v : ℚ) (t' : String) :
    List.lookup t' (upsertGroup acc t p v) =
      if t' = t then Option.some (upsertPD ((List.lookup t acc).getD []) p v)
      else List.lookup t' acc := by
  induction acc with
  | nil =>
    by_cases h : t' = t
    · subst h
      simp [upsertGroup, List.lookup, upsertPD]
    · simp [upsertGroup, List.lookup, beq_eq_false_iff_ne.mpr h, h]
  | cons hd tl ih =>
    obtain ⟨t0, pd0⟩ := hd
    by_cases h0 : t0 = t
    · subst h0
      by_cases h : t' = t0
      · subst h
        simp [upsertGroup, List.lookup]
      · simp [upsertGroup, List.lookup, beq_eq_false_iff_ne.mpr h, h]
    · by_cases h2 : t' = t0
      · subst h2
        have hne : ¬ t' = t := fun hc => h0 (hc.symm ▸ rfl)
        simp [upsertGroup, h0, List.lookup, hne]
      · simp [upsertGroup, h0, List.lookup, beq_eq_false_iff_ne.mpr h2, ih,
          beq_eq_false_iff_ne.mpr (fun hc => h0 hc.symm)]

theorem keys_upsertGroup (acc : List (String × List (String × ℚ)))
    (t p : String) (v : ℚ) :
    (upsertGroup acc t p v).map Prod.fst =
      if t ∈ acc.map Prod.fst then acc.map Prod.fst
      else acc.map Prod.fst ++ [t] := by
  induction acc with
  | nil => simp [upsertGroup]
  | cons hd tl ih =>
    obtain ⟨t0, pd0⟩ := hd
    by_cases h0 : t0 = t
    · subst h0
      simp [upsertGroup]
    · simp only [upsertGroup, if_neg h0, List.map_cons, ih, List.mem_cons]
      by_cases hm : t ∈ tl.map Prod.fst
      · simp [hm]
      · have hcond : ¬ (t = t0 ∨ t ∈ List.map Prod.fst tl) := by
          rintro (hc | hc)
          · exact h0 hc.symm
          · exact hm hc
        rw [if_neg hcond, if_neg hm]
        rfl

theorem nodupKeys_upsertGroup (acc : List (String × List (String × ℚ)))
    (t p : String) (v : ℚ) (h : (acc.map Prod.fst).Nodup) :
    ((upsertGroup acc t p v).map Prod.fst).Nodup := by
  rw [keys_upsertGroup]
  by_cases hm : t ∈ acc.map Prod.fst
  · simpa [hm] using h
  · rw [if_neg hm]
    simp [List.nodup_append, h, hm]

theorem mem_lookup_of_nodupKeys {α : Type} [DecidableEq α] {β : Type}
    (l : List (α × β)) (a : α) (b : β)
    (hnd : (l.map Prod.fst).Nodup) (hm : (a, b) ∈ l) :
    List.lookup a l = Option.some b := by
  induction l with
  | nil => cases hm
  | cons hd tl ih =>
    obtain ⟨a0, b0⟩ := hd
    simp only [List.map_cons, List.nodup_cons] at hnd
    rcases List.mem_cons.mp hm with heq | htl
    · obtain ⟨rfl, rfl⟩ := Prod.mk.injEq .. ▸ heq
      simp [List.lookup]
    · have hne : ¬ a = a0 := by
        intro hc
        subst hc
        exact hnd.1 (List.mem_map_of_mem Prod.fst htl)
      simp [List.lookup, beq_eq_false_iff_ne.mpr hne, ih hnd.2 htl]

theorem bindingsFor_cons_some (k : String) (v : ℚ) (rest : List (String × ℚ))
    (t t0 p0 : String) (hk : splitKey "__" k = Option.some (t0, p0)) :
    bindingsFor ((k, v) :: rest) t =
      if t0 = t then (p0, v) :: bindingsFor rest t else bindingsFor rest t := by
  by_cases ht : t0 = t
  · simp [bindingsFor, List.filterMap_cons, hk, ht]
  · simp [bindingsFor, List.filterMap_cons, hk, ht]

theorem bindingsFor_cons_none (k : String) (v : ℚ) (rest : List (String × ℚ))
    (t : String) (hk : splitKey "__" k = Option.none) :
    bindingsFor ((k, v) :: rest) t = bindingsFor rest t := by
  simp [bindingsFor, List.filterMap_cons, hk]

theorem parsedKeys_cons_some (k : String) (v : ℚ) (rest : List (String × ℚ))
    (tp : String × String) (hk : splitKey "__" k = Option.some tp) :
    parsedKeys ((k, v) :: rest) = tp :: parsedKeys rest := by
  simp [parsedKeys, List.filterMap_cons, hk]

theorem parsedKeys_cons_none (k : String) (v : ℚ) (rest : List (String × ℚ))
    (hk : splitKey "__" k = Option.none) :
    parsedKeys ((k, v) :: rest) = parsedKeys rest := by
  simp [parsedKeys, List.filterMap_cons, hk]

theorem mem_bindings_keys (params : List (String × ℚ)) (t p0 : String) :
    p0 ∈ (bindingsFor params t).map Prod.fst → (t, p0) ∈ parsedKeys params := by
  induction params with
  | nil => intro h; cases h
  | cons kv rest ih =>
    obtain ⟨k, v⟩ := kv
    cases hk : splitKey "__" k with
    | none =>
      rw [bindingsFor_cons_none k v rest t hk, parsedKeys_cons_none k v rest hk]
      exact ih
    | some tp =>
      obtain ⟨t0, q0⟩ := tp
      rw [bindingsFor_cons_some k v rest t t0 q0 hk, parsedKeys_cons_some k v rest _ hk]
      by_cases ht : t0 = t
      · rw [if_pos ht]
        intro h
        rcases List.mem_map.mp h with ⟨pv, hpv, hfst⟩
        rcases List.mem_cons.mp hpv with heq | htl
        · rw [heq] at hfst
          rw [← hfst, ← ht]
          exact List.mem_cons_self _ _
        · exact List.mem_cons_of_mem _ (ih (hfst ▸ List.mem_map_of_mem Prod.fst htl))
      · rw [if_neg ht]
        intro h
        exact List.mem_cons_of_mem _ (ih h)

theorem bindings_keys_nodup (params : List (String × ℚ)) (t : String)
    (hND : (parsedKeys params).Nodup) :
    ((bindingsFor params t).map Prod.fst).Nodup := by
  induction params with
  | nil => simp [bindingsFor]
  | cons kv rest ih =>
    obtain ⟨k, v⟩ := kv
    cases hk : splitKey "__" k with
    | none =>
      rw [parsedKeys_cons_none k v rest hk] at hND
      rw [bindingsFor_cons_none k v rest t hk]
      exact ih hND
    | some tp =>
      obtain ⟨t0, q0⟩ := tp
      rw [parsedKeys_cons_some k v rest _ hk] at hND
      simp only [List.nodup_cons] at hND
      rw [bindingsFor_cons_some k v rest t t0 q0 hk]
      by_cases ht : t0 = t
      · rw [if_pos ht]
        simp only [List.map_cons, List.nodup_cons]
        refine ⟨?_, ih hND.2⟩
        intro hmem
        have hin := mem_bindings_keys rest t q0 hmem
        rw [← ht] at hin
        exact hND.1 hin
      · rw [if_neg ht]
        exact ih hND.2

theorem groupParams_ok_nodupKeys :
    ∀ (params : List (String × ℚ)) (acc gs : List (String × List (String × ℚ))),
      (acc.map Prod.fst).Nodup → groupParams params acc = Except.ok gs →
      (gs.map Prod.fst).Nodup := by
  intro params
  induction params with
  | nil =>
    intro acc gs hnd hok
    cases hok
    exact hnd
  | cons kv rest ih =>
    intro acc gs hnd hok
    obtain ⟨k, v⟩ := kv
    cases hk : splitKey "__" k with
    | none => rw [groupParams, hk] at hok; cases hok
    | some tp =>
      rw [groupParams, hk] at hok
      exact ih _ _ (nodupKeys_upsertGroup acc tp.1 tp.2 v hnd) hok

theorem groupParams_ok_lookup :
    ∀ (params : List (String × ℚ)) (acc gs : List (String × List (String × ℚ))),
      groupParams params acc = Except.ok gs → ∀ t : String,
      List.lookup t gs =
        match List.lookup t acc with
        | Option.some pd => Option.some (pdExtend pd (bindingsFor params t))
        | Option.none =>
          if bindingsFor params t = [] then Option.none
          else Option.some (pdExtend [] (bindingsFor params t)) := by
  intro params
  induction params with
  | nil =>
    intro acc gs hok t
    cases hok
    cases hl : List.lookup t acc with
    | none => simp [bindingsFor, hl]
    | some pd => simp [bindingsFor, hl, pdExtend]
  | cons kv rest ih =>
    intro acc gs hok t
    obtain ⟨k, v⟩ := kv
    cases hk : splitKey "__" k with
    | none => rw [groupParams, hk] at hok; cases hok
    | some tp =>
      obtain ⟨t0, p0⟩ := tp
      rw [groupParams, hk] at hok
      have hih := ih _ _ hok t
      rw [lookup_upsertGroup acc t0 p0 v t] at hih
      rw [bindingsFor_cons_some k v rest t t0 p0 hk]
      by_cases ht : t = t0
      · subst ht
        rw [if_pos rfl] at hih
        rw [if_pos rfl]
        cases hl : List.lookup t acc with
        | none =>
          rw [hl] at hih
          simp only [Option.getD_none] at hih
          rw [hih]
          simp [pdExtend]
        | some pd =>
          rw [hl] at hih
          simp only [Option.getD_some] at hih
          rw [hih]
          simp [pdExtend]
      · rw [if_neg ht] at hih
        rw [if_neg (fun hc => ht hc.symm)]
        exact hih

theorem mapM_ok_mem {α β : Type} (f : α → Except String β) :
    ∀ (l : List α) (out : List β), l.mapM f = Except.ok out →
      ∀ x ∈ out, ∃ g ∈ l, f g = Except.ok x := by
  intro l
  induction l with
  | nil =>
    intro out hok x hx
    cases hok
    cases hx
  | cons hd tl ih =>
    intro out hok x hx
    rw [List.mapM_cons] at hok
    cases hf : f hd with
    | error e => rw [hf] at hok; cases hok
    | ok b =>
      rw [hf] at hok
      cases hmt : tl.mapM f with
      | error e => rw [hmt] at hok; cases hok
      | ok bs =>
        rw [hmt] at hok
        have : b :: bs = out := by
          simpa [bind, Except.bind, pure, Except.pure] using hok
        rw [← this] at hx
        rcases List.mem_cons.mp hx with hx0 | hxs
        · exact ⟨hd, List.mem_cons_self _ _, by rw [hf, hx0]⟩
        · rcases ih bs hmt x hxs with ⟨g, hg, hfg⟩
          exact ⟨g, List.mem_cons_of_mem _ hg, hfg⟩

/-- C4 counterexample.  The claim (stated over `run_simulation`) fails on the
legacy implementation `src/uq_runner.py:204-217`: with base template
`f` = `a={{p}} b={{q}}` and parameters `{f/p: 1, f/q: 2}`, each parameter is
rendered separately from the pristine base, so the second render regenerates
the file with `p` unbound (empty) and the first substitution is lost — the
final file is `a= b=2`, not the grouped render `a=1 b=2`. -/
theorem legacy_render_loses_earlier_substitution :
    run_simulation_legacy [("f/p", 1), ("f/q", 2)]
      (fun t => if t = "f"
        then Option.some [Tok.text "a=", Tok.var "p", Tok.text " b=", Tok.var "q"]
        else Option.none) [] =
      Except.ok [("f", "a= b=2")] ∧ "a= b=2" ≠ "a=1 b=2" := by
  exact ⟨by with_unfolding_all rfl, by decide⟩

/-- C4 amended.  The packaged `run_simulation`
(src/uqtopus/core/uq_runner.py:158-180) does satisfy the claim: provided the
parameter keys parse to pairwise distinct `(file, param)` targets, every file
it writes is produced by ONE render of that file's base template with ALL of
the file's parameters bound together, so no earlier substitution is lost.
(The legacy `src/uq_runner.py` renders one parameter per pass and loses
earlier substitutions — see the counterexample.) -/
theorem grouped_render_single_pass (params : List (String × ℚ))
    (base : String → Option (List Tok)) (outs : List (String × String))
    (hND : (parsedKeys params).Nodup)
    (hok : run_simulation_core params base = Except.ok outs) :
    ∀ t c, (t, c) ∈ outs → ∃ tpl, base t = Option.some tpl ∧
      c = jinjaRender tpl (renderCtx (bindingsFor params t)) := by
  intro t c hmem
  rw [run_simulation_core] at hok
  cases hgp : groupParams params [] with
  | error e =>
    rw [hgp] at hok
    cases hok
  | ok gs =>
    rw [hgp] at hok
    simp only [bind, Except.bind] at hok
    obtain ⟨g, hg, hfg⟩ := mapM_ok_mem _ gs outs hok (t, c) hmem
    cases hb : base g.1 with
    | none =>
      rw [hb] at hfg
      cases hfg
    | some tpl =>
      rw [hb] at hfg
      have hgt : g.1 = t := congrArg Prod.fst (Except.ok.inj hfg)
      have hgc : jinjaRender tpl (renderCtx g.2) = c :=
        congrArg Prod.snd (Except.ok.inj hfg)
      have hnodupGs : (gs.map Prod.fst).Nodup :=
        groupParams_ok_nodupKeys params [] gs (by simp) hgp
      have hlk : List.lookup g.1 gs = Option.some g.2 :=
        mem_lookup_of_nodupKeys gs g.1 g.2 hnodupGs (by
          rw [show (g.1, g.2) = g from rfl]
          exact hg)
      have hchar := groupParams_ok_lookup params [] gs hgp g.1
      simp only [List.lookup] at hchar
      rw [hlk] at hchar
      by_cases hnil : bindingsFor params g.1 = []
      · rw [if_pos hnil] at hchar
        cases hchar
      · rw [if_neg hnil] at hchar
        have hpd : g.2 = bindingsFor params g.1 := by
          have h1 := Option.some.inj hchar
          rw [h1, pdExtend_append (bindingsFor params g.1) []
            (bindings_keys_nodup params g.1 hND) (by intro p _ hc; cases hc)]
          simp
        refine ⟨tpl, by rw [← hgt]; exact hb, ?_⟩
        rw [← hgc, hpd, hgt]

/-- C4 witness: at the concrete two-parameter input targeting one file, the
hypotheses of the grouped-render theorem hold and its conclusion yields the
single-pass render with both values bound. -/
theorem grouped_render_single_pass_witness :
    (parsedKeys [("f__p", (1 : ℚ)), ("f__q", 2)]).Nodup ∧
    (∃ tpl,
      (fun t => if t = "f"
        then Option.some [Tok.text "a=", Tok.var "p", Tok.text " b=", Tok.var "q"]
        else Option.none) "f" = Option.some tpl ∧
      "a=1 b=2" = jinjaRender tpl
        (renderCtx (bindingsFor [("f__p", 1), ("f__q", 2)] "f"))) := by
  have hND : (parsedKeys [("f__p", (1 : ℚ)), ("f__q", 2)]).Nodup := by
    with_unfolding_all decide
  refine ⟨hND, ?_⟩
  exact grouped_render_single_pass [("f__p", 1), ("f__q", 2)]
    (fun t => if t = "f"
      then Option.some [Tok.text "a=", Tok.var "p", Tok.text " b=", Tok.var "q"]
      else Option.none)
    [("f", "a=1 b=2")] hND (by with_unfolding_all rfl) "f" "a=1 b=2" (by simp)
